import Mathlib

/-!
Verification of `inference/run_stochastic_inference.py` (NiftyNet fork).

The file shallowly embeds the pure logic of the stochastic-inference driver
script: checkpoint-suffix extraction and maximum (`find_latest_checkpoint`),
zero-padded output-directory naming (`n_to_zfill`, `zfill`), the evaluation-set
and method dispatch tables, the per-repetition configuration mutation through
`configparser`, and the repetition loop itself, modelled as a fold over an
explicit driver state.  The filesystem is modelled by the list of existing
directories, the temporary configuration file by its parsed contents, and the
external `subprocess.call` by an environment oracle giving, per repetition
index, either an exit status or a raised exception.
-/

/-- Numeric value of a decimal digit character (`'0'` has code 48). -/
def digitVal (c : Char) : Nat := c.toNat - 48

/-- Value of a decimal digit string, most significant digit first. -/
def decValL (l : List Char) : Nat := l.foldl (fun a c => 10 * a + digitVal c) 0

/-- Decimal rendering of a natural number, fuel-driven so that it is structural
and kernel-reducible.  The fuel `n + 1` in `pyStrL` always suffices. -/
def pyStrAux : Nat → Nat → List Char
  | 0, _ => []
  | fuel + 1, n =>
    if n < 10 then [Nat.digitChar n]
    else pyStrAux fuel (n / 10) ++ [Nat.digitChar (n % 10)]

/-- Models Python `str(i)` on a non-negative integer: decimal digits, no sign,
no leading zeros (and `"0"` for zero). -/
def pyStrL (n : Nat) : List Char := pyStrAux (n + 1) n

/-- String form of `pyStrL`. -/
def pyStr (n : Nat) : String := String.mk (pyStrL n)

/-- Models Python `str.zfill(w)` on an unsigned digit string: left-pad with
`'0'` up to width `w`; a string already at least `w` long is unchanged. -/
def zfillL (w : Nat) (l : List Char) : List Char :=
  List.replicate (w - l.length) '0' ++ l

/-- String form of `zfillL`. -/
def zfill (w : Nat) (s : String) : String := String.mk (zfillL w s.data)

/-- Models Python `s.split(sep)` for a single-character separator: splits on
every occurrence, keeping empty pieces, and never returns an empty list. -/
def splitOnCharL (sep : Char) : List Char → List (List Char)
  | [] => [[]]
  | c :: rest =>
    if c == sep then [] :: splitOnCharL sep rest
    else
      match splitOnCharL sep rest with
      | [] => [[c]]
      | h :: t => (c :: h) :: t

/-- Models Python `s.split(sep)[-1]` (the piece after the last separator). -/
def pyLastPiece (sep : Char) (l : List Char) : List Char :=
  (splitOnCharL sep l).getLastD []

/-- Models Python `s.split(sep)[0]` (the piece before the first separator). -/
def pyHeadPiece (sep : Char) (l : List Char) : List Char :=
  (splitOnCharL sep l).headD []

/-- Models Python `int(s)` restricted to unsigned decimal literals, the shape
produced by the checkpoint naming convention: a non-empty all-digit string
parses to its value, anything else is a `ValueError` (`none`). -/
def pyIntL (l : List Char) : Option Nat :=
  if l.isEmpty then none
  else if l.all (fun c => c.isDigit) then some (decValL l) else none

/-- Does the pattern occur as the initial segment of the list? -/
def substrAt : List Char → List Char → Bool
  | [], _ => true
  | _ :: _, [] => false
  | p :: ps, c :: cs => p == c && substrAt ps cs

/-- Does the pattern occur anywhere inside the list? -/
def hasSubstring (pat : List Char) : List Char → Bool
  | [] => substrAt pat []
  | c :: rest => substrAt pat (c :: rest) || hasSubstring pat rest

/-- Does the list end with the pattern? -/
def listEndsWith (pat l : List Char) : Bool :=
  decide (pat.length ≤ l.length) && (l.drop (l.length - pat.length) == pat)

/-- Models the glob pattern `*ckpt*meta` used by
`model_directory.glob('*ckpt*meta')`: a name matches iff it ends in `meta`
and contains `ckpt` before that final `meta`. -/
def globCkptMeta (s : String) : Bool :=
  listEndsWith ['m', 'e', 't', 'a'] s.data &&
    hasSubstring ['c', 'k', 'p', 't'] (s.data.take (s.data.length - 4))

/-- Models `os.path.join(a, b)` for a non-empty `a` without trailing slash and
a relative `b`, the only shapes the driver produces. -/
def pathJoin (a b : String) : String := a ++ "/" ++ b

/-- Python-level error conditions relevant to the driver.  `valueError` mirrors
Python's `ValueError` (raised by `max` on an empty sequence and by `int` on a
bad literal), `noSection` mirrors `configparser.NoSectionError`, `osError` an
exception raised while spawning the external process.  `noCheckpointsFound` is
modelled from the spec: the dedicated "no checkpoints found" error class the
spec asks for; it is declared here only to compare the code against it. -/
inductive PyError where
  | valueError (msg : String)
  | noSection (sec : String)
  | osError (msg : String)
  | noCheckpointsFound
deriving DecidableEq, Repr

/-- Equality on `Except` results is decidable when it is on both sides. -/
instance {ε α : Type _} [DecidableEq ε] [DecidableEq α] : DecidableEq (Except ε α) := fun x y =>
  match x, y with
  | Except.ok a, Except.ok b => decidable_of_iff (a = b) (by simp)
  | Except.error e, Except.error e2 => decidable_of_iff (e = e2) (by simp)
  | Except.ok _, Except.error _ => isFalse (by simp)
  | Except.error _, Except.ok _ => isFalse (by simp)

/-- Models `max(list)` in Python: `ValueError` on the empty list, otherwise the
left fold of binary `max` over the tail starting from the head. -/
def pyMax : List Nat → Except PyError Nat
  | [] => Except.error (PyError.valueError "max() arg is an empty sequence")
  | a :: l => Except.ok (l.foldl Nat.max a)

/-- Effectful `map` over `Option`, modelling a Python list comprehension whose
body can raise: the whole comprehension fails iff any element fails. -/
def mapOptL (f : α → Option β) : List α → Option (List β)
  | [] => some []
  | a :: l =>
    match f a, mapOptL f l with
    | some b, some bl => some (b :: bl)
    | _, _ => none

/-- The integer training-step suffix of one checkpoint file name:
`int(str(x).split('-')[-1].split('.')[0])`. -/
def ckpt_suffix (x : String) : Option Nat :=
  pyIntL (pyHeadPiece '.' (pyLastPiece '-' x.data))

/-- Models `find_latest_checkpoint`: from the listing of file names in the
`models` subdirectory, keep those matching `*ckpt*meta`, take for each the
piece after the last `-`, parse the part before the first `.` as an integer,
and return the maximum.  (The source applies the split to the full path
string `str(x)`; for names that contain a `-`, as the naming convention
requires, the directory-path part is irrelevant to `split('-')[-1]`.) -/
def find_latest_checkpoint (models_listing : List String) : Except PyError Nat :=
  let model_numbers := (models_listing.filter globCkptMeta).map (fun x => pyLastPiece '-' x.data)
  match mapOptL (fun l => pyIntL (pyHeadPiece '.' l)) model_numbers with
  | none => Except.error (PyError.valueError "invalid literal for int() with base 10")
  | some suffixes => pyMax suffixes

/-- `str(i).zfill(n_to_zfill)` padding width, from
`n_to_zfill = int(np.log10(int(args.n_evaluations)) + 1)`.  On an exact
positive integer `n`, `np.log10(n) + 1` truncates to the decimal digit count
of `n`, i.e. `⌊log10 n⌋ + 1` (proved equal to `Nat.log 10 n + 1` below). -/
def n_to_zfill (n : Nat) : Nat := (pyStrL n).length

/-- Resolution of the `evaluation_set` flag, mirroring the source's
`if/elif/elif/else` chain (including the redundant final `else`). -/
def resolve_eval_set (evaluation_set : String) : String :=
  if evaluation_set == "T" then "training"
  else if evaluation_set == "V" then "validation"
  else if evaluation_set == "I" then "inference"
  else "inference"

/-- Hard-coded path of the multi-task NiftyNet entry point. -/
def multi_task_app : String :=
  "/scratch2/NOT_BACKED_UP/fbragman/DeepSyn/code/NiftyNet_github_fork/NiftyNet/net_multitask.py"

/-- Hard-coded path of the regression NiftyNet entry point. -/
def reg_app : String :=
  "/scratch2/NOT_BACKED_UP/fbragman/DeepSyn/code/NiftyNet_github_fork/NiftyNet/net_regress.py"

/-- Hard-coded path of the classification NiftyNet entry point. -/
def class_app : String :=
  "/scratch2/NOT_BACKED_UP/fbragman/DeepSyn/code/NiftyNet_github_fork/NiftyNet/net_classify.py"

/-- Hard-coded interpreter path. -/
def pyconda : String := "/home/fbragman/miniconda3/envs/tf_d/bin/python"

/-- The 3-way `args.method` dispatch from the main loop's
`if args.method == 'multi' / elif args.method == 'class' / else` chain.
`none` models the argparse default (flag not given). -/
def select_app (method : Option String) : String :=
  if method == some "multi" then multi_task_app
  else if method == some "class" then class_app
  else reg_app

/-- The argument vector built by `calling_function`:
`[pyconda, app, 'inference', '-c', tmp_config]`. -/
def system_command (app tmp_config : String) : List String :=
  [pyconda, app, "inference", "-c", tmp_config]

/-- A parsed configuration as `configparser.RawConfigParser` holds it: a list
of sections, each a list of key/value pairs.  Option names are stored already
normalized (configparser lowercases them on `set`/`read`); reading a file
rejects duplicate sections and duplicate options, so both association lists
are duplicate-free in practice, though no proof below needs that. -/
abbrev IniConfig : Type := List (String × List (String × String))

/-- Does the configuration have the given section (`config.has_section`)? -/
def hasSection (cfg : IniConfig) (sec : String) : Bool :=
  cfg.any (fun p => p.1 == sec)

/-- Set a key in one section's key/value list: replace the value if the key is
present, append otherwise (dictionary update). -/
def kvSet (l : List (String × String)) (k v : String) : List (String × String) :=
  if l.any (fun p => p.1 == k) then
    l.map (fun p => if p.1 == k then (k, v) else p)
  else l ++ [(k, v)]

/-- The successful behavior of `config.set(sec, k, v)`. -/
def config_update (cfg : IniConfig) (sec k v : String) : IniConfig :=
  cfg.map (fun p => if p.1 == sec then (p.1, kvSet p.2 k v) else p)

/-- Models `config.set(sec, k, v)`: raises `NoSectionError` when the section
is absent, otherwise updates it in place. -/
def config_set (cfg : IniConfig) (sec k v : String) : Except PyError IniConfig :=
  if hasSection cfg sec then Except.ok (config_update cfg sec k v)
  else Except.error (PyError.noSection sec)

/-- Models `config.get(sec, k)` as a partial lookup. -/
def config_get (cfg : IniConfig) (sec k : String) : Option String :=
  match cfg.find? (fun p => p.1 == sec) with
  | some p => (p.2.find? (fun q => q.1 == k)).map (fun q => q.2)
  | none => none

/-- Outcome of `subprocess.call` for one repetition, supplied by the
environment: the spawned process ran and returned an exit status, or the
spawn itself raised an exception. -/
inductive CallResult where
  | ret (exitStatus : Int)
  | exn (msg : String)
deriving DecidableEq, Repr

/-- Did the call raise? -/
def isExn : CallResult → Bool
  | CallResult.ret _ => false
  | CallResult.exn _ => true

/-- Models `calling_function`: builds the argument vector, runs `call`, and
returns `None` — the exit status that `call` produces is discarded, so a
completed process is a success whatever its status, and only a raised
exception propagates. -/
def calling_function (outcome : CallResult) : Except PyError Unit :=
  match outcome with
  | CallResult.ret _ => Except.ok ()
  | CallResult.exn m => Except.error (PyError.osError m)

/-- The observable state threaded through the repetition loop: the set of
existing output directories (the filesystem), the contents of the temporary
configuration file on disk, the log of dispatched commands (repetition index
and argument vector), and the indices whose dispatch raised (the
`'END OF FUNCTION CALL'` log lines). -/
structure DriverState where
  dirs : List String
  tmpConfig : IniConfig
  dispatched : List (Nat × List String)
  failLog : List Nat
deriving DecidableEq

/-- The output directory of repetition `i`:
`os.path.join(root_output, 'output_iter_' + str(i).zfill(w))`. -/
def output_dir_name (root_output : String) (w i : Nat) : String :=
  pathJoin root_output ("output_iter_" ++ zfill w (pyStr i))

/-- One iteration of the repetition loop.  If the output directory exists the
iteration is a pure `continue`.  Otherwise the directory is created
(`os.makedirs`), the temporary configuration is re-read from disk,
`save_seg_dir` is overwritten in its `INFERENCE` section, the file is written
back, and the selected program is dispatched inside `try/except`: a raised
exception only appends the index to the failure log.  A missing `INFERENCE`
section would make `config.set` raise outside the `try`, aborting the
driver (`Except.error`). -/
def runRepetition (env : Nat → CallResult) (method : Option String)
    (w : Nat) (root_output tmp_config : String)
    (st : DriverState) (i : Nat) : Except PyError DriverState :=
  let output_dir := output_dir_name root_output w i
  if output_dir ∈ st.dirs then Except.ok st
  else
    let dirs1 := st.dirs ++ [output_dir]
    match config_set st.tmpConfig "INFERENCE" "save_seg_dir" output_dir with
    | Except.error e => Except.error e
    | Except.ok cfg1 =>
      let cmd := system_command (select_app method) tmp_config
      match calling_function (env i) with
      | Except.ok _ =>
        Except.ok ⟨dirs1, cfg1, st.dispatched ++ [(i, cmd)], st.failLog⟩
      | Except.error _ =>
        Except.ok ⟨dirs1, cfg1, st.dispatched ++ [(i, cmd)], st.failLog ++ [i]⟩

/-- Sequential execution of the repetition loop over a list of repetition
indices, one `runRepetition` step per index; an error in a step (only a
missing `INFERENCE` section can produce one) aborts the whole driver, exactly
as an exception outside the `try` block would. -/
def runLoop (env : Nat → CallResult) (method : Option String)
    (w : Nat) (root_output tmp_config : String) :
    DriverState → List Nat → Except PyError DriverState
  | st, [] => Except.ok st
  | st, i :: rest =>
    match runRepetition env method w root_output tmp_config st i with
    | Except.error e => Except.error e
    | Except.ok st1 => runLoop env method w root_output tmp_config st1 rest

/-- The whole repetition loop `for i in range(int(args.n_evaluations))`,
starting from the state left by the pre-loop setup (temporary configuration
written, output root computed as `os.path.join(args.output_prefix, eval_set)`,
padding width `n_to_zfill`).  `out0` models `args.output_prefix`. -/
def runDriver (env : Nat → CallResult) (method : Option String)
    (n_evaluations : Nat) (out0 eval_set tmp_config : String)
    (st : DriverState) : Except PyError DriverState :=
  runLoop env method (n_to_zfill n_evaluations) (pathJoin out0 eval_set) tmp_config
    st (List.range n_evaluations)

/-- Claim C6: the `evaluation_set` flag resolves `T` to `training`, `V` to
`validation`, `I` to `inference`, and any other value (e.g. `Z`) falls back
to `inference`. -/
theorem claim_C6 :
    resolve_eval_set "T" = "training" ∧
    resolve_eval_set "V" = "validation" ∧
    resolve_eval_set "I" = "inference" ∧
    ∀ e : String, e ≠ "T" → e ≠ "V" → resolve_eval_set e = "inference" := by
  refine ⟨rfl, rfl, rfl, ?_⟩
  intro e hT hV
  simp only [resolve_eval_set, beq_iff_eq]
  rw [if_neg hT, if_neg hV]
  by_cases hI : e = "I"
  · rw [if_pos hI]
  · rw [if_neg hI]

/-- Claim C6 witness: the invalid flag value `Z` resolves to `inference`. -/
theorem claim_C6_witness : resolve_eval_set "Z" = "inference" :=
  claim_C6.2.2.2 "Z" (by decide) (by decide)

/-- Claim C7: the `method` flag selects `multi_task_app` for `multi`,
`class_app` for `class`, and `reg_app` for anything else, including `reg`,
an unrecognized value, and the unset flag. -/
theorem claim_C7 :
    select_app (some "multi") = multi_task_app ∧
    select_app (some "class") = class_app ∧
    select_app (some "reg") = reg_app ∧
    select_app none = reg_app ∧
    ∀ m : Option String, m ≠ some "multi" → m ≠ some "class" → select_app m = reg_app := by
  refine ⟨rfl, rfl, rfl, rfl, ?_⟩
  intro m hmulti hclass
  simp only [select_app, beq_iff_eq]
  rw [if_neg hmulti, if_neg hclass]

/-- Claim C7 witness: the unrecognized method value `foo` selects the
regression program. -/
theorem claim_C7_witness : select_app (some "foo") = reg_app :=
  claim_C7.2.2.2.2 (some "foo") (by decide) (by decide)

/-- Fold of binary `max` over a list: the result is the start or a member, is
an upper bound of the start, and bounds every member. -/
theorem foldl_max_spec (l : List Nat) : ∀ a : Nat,
    (l.foldl Nat.max a = a ∨ l.foldl Nat.max a ∈ l) ∧
    a ≤ l.foldl Nat.max a ∧ ∀ x ∈ l, x ≤ l.foldl Nat.max a := by
  induction l with
  | nil => intro a; simp
  | cons b t ih =>
    intro a
    simp only [List.foldl_cons]
    obtain ⟨hmem, hle, hub⟩ := ih (Nat.max a b)
    refine ⟨?_, ?_, ?_⟩
    · rcases hmem with h | h
      · have hm : Nat.max a b = a ∨ Nat.max a b = b := by
          rcases Nat.le_total a b with h2 | h2
          · right; exact Nat.max_eq_right h2
          · left; exact Nat.max_eq_left h2
        rcases hm with hm | hm
        · left; rw [h, hm]
        · right; rw [h, hm]; exact List.mem_cons_self b t
      · right; exact List.mem_cons_of_mem _ h
    · exact le_trans (Nat.le_max_left a b) hle
    · intro x hx
      rcases List.mem_cons.mp hx with rfl | hx
      · exact le_trans (Nat.le_max_right a x) hle
      · exact hub x hx

/-- `pyMax` on a non-empty list returns a member bounding every member. -/
theorem pyMax_spec (sl : List Nat) (h : sl ≠ []) :
    ∃ m, pyMax sl = Except.ok m ∧ m ∈ sl ∧ ∀ x ∈ sl, x ≤ m := by
  cases sl with
  | nil => exact absurd rfl h
  | cons a t =>
    obtain ⟨hmem, hle, hub⟩ := foldl_max_spec t a
    refine ⟨t.foldl Nat.max a, rfl, ?_, ?_⟩
    · rcases hmem with h2 | h2
      · rw [h2]; exact List.mem_cons_self a t
      · exact List.mem_cons_of_mem _ h2
    · intro x hx
      rcases List.mem_cons.mp hx with rfl | hx
      · exact hle
      · exact hub x hx

/-- `mapOptL` after a pure `map` fuses. -/
theorem mapOptL_map (g : β → Option γ) (f : α → β) (l : List α) :
    mapOptL g (l.map f) = mapOptL (fun x => g (f x)) l := by
  induction l with
  | nil => rfl
  | cons a t ih => rw [List.map_cons]; simp only [mapOptL, ih]

/-- When every element parses, `mapOptL` succeeds with the `filterMap`. -/
theorem mapOptL_eq_filterMap (f : α → Option β) (l : List α)
    (h : ∀ x ∈ l, (f x).isSome) : mapOptL f l = some (l.filterMap f) := by
  induction l with
  | nil => rfl
  | cons a t ih =>
    obtain ⟨b, hb⟩ := Option.isSome_iff_exists.mp (h a (List.mem_cons_self a t))
    have ht := ih (fun x hx => h x (List.mem_cons_of_mem a hx))
    simp [mapOptL, List.filterMap_cons, hb, ht]

/-- Claim C1: whenever at least one file in the `models` listing matches
`*ckpt*meta` and every matching file carries a well-formed integer suffix
(the digits after its last `-` and before the following `.`),
`find_latest_checkpoint` returns the maximum of those suffixes: a value that
is one of the suffixes and bounds all of them. -/
theorem claim_C1 (models_listing : List String)
    (hne : models_listing.filter globCkptMeta ≠ [])
    (hparse : ∀ f ∈ models_listing.filter globCkptMeta, (ckpt_suffix f).isSome) :
    ∃ m, find_latest_checkpoint models_listing = Except.ok m ∧
      m ∈ (models_listing.filter globCkptMeta).filterMap ckpt_suffix ∧
      ∀ s ∈ (models_listing.filter globCkptMeta).filterMap ckpt_suffix, s ≤ m := by
  have hm : mapOptL (fun x => pyIntL (pyHeadPiece '.' (pyLastPiece '-' x.data)))
      (models_listing.filter globCkptMeta)
      = some ((models_listing.filter globCkptMeta).filterMap ckpt_suffix) :=
    mapOptL_eq_filterMap _ _ hparse
  have hfne : (models_listing.filter globCkptMeta).filterMap ckpt_suffix ≠ [] := by
    intro h0
    obtain ⟨f, hf⟩ := List.exists_mem_of_ne_nil _ hne
    have h1 := hparse f hf
    have h2 := (List.filterMap_eq_nil_iff.mp h0) f hf
    simp [h2] at h1
  obtain ⟨m, hmax, hmem, hub⟩ := pyMax_spec _ hfne
  refine ⟨m, ?_, hmem, hub⟩
  simp only [find_latest_checkpoint, mapOptL_map, hm, hmax]

/-- Claim C1 witness: on a listing with suffixes 5, 20, 100 the scanner
returns 100, and the general theorem applies to it. -/
theorem claim_C1_witness :
    (∃ m, find_latest_checkpoint
        ["model.ckpt-5.meta", "model.ckpt-20.meta", "model.ckpt-100.meta"]
        = Except.ok m ∧
      m ∈ (["model.ckpt-5.meta", "model.ckpt-20.meta",
            "model.ckpt-100.meta"].filter globCkptMeta).filterMap ckpt_suffix ∧
      ∀ s ∈ (["model.ckpt-5.meta", "model.ckpt-20.meta",
              "model.ckpt-100.meta"].filter globCkptMeta).filterMap ckpt_suffix,
        s ≤ m) ∧
    find_latest_checkpoint
        ["model.ckpt-5.meta", "model.ckpt-20.meta", "model.ckpt-100.meta"]
      = Except.ok 100 :=
  ⟨claim_C1 ["model.ckpt-5.meta", "model.ckpt-20.meta", "model.ckpt-100.meta"]
      (by decide) (by decide),
   by decide⟩

/-- Claim C2 counterexample: on an empty `models` listing the scanner does not
raise the spec's dedicated `NoCheckpointsFound` condition; it lets Python's
empty-sequence `max` `ValueError` escape to the caller. -/
theorem claim_C2_counterexample :
    find_latest_checkpoint [] =
      Except.error (PyError.valueError "max() arg is an empty sequence") ∧
    find_latest_checkpoint [] ≠ Except.error PyError.noCheckpointsFound := by
  exact ⟨rfl, by decide⟩

/-- Claim C2 as amended: when no file in the listing matches the checkpoint
naming convention, `find_latest_checkpoint` fails with the generic
empty-sequence-maximum `ValueError`, which propagates to the caller; it does
not raise a dedicated no-checkpoints-found condition. -/
theorem claim_C2_amended (models_listing : List String)
    (h : models_listing.filter globCkptMeta = []) :
    find_latest_checkpoint models_listing =
      Except.error (PyError.valueError "max() arg is an empty sequence") := by
  simp only [find_latest_checkpoint, h, List.map_nil, mapOptL, pyMax]

/-- Claim C2 amended witness: the empty listing exhibits the leak. -/
theorem claim_C2_amended_witness :
    find_latest_checkpoint [] =
      Except.error (PyError.valueError "max() arg is an empty sequence") :=
  claim_C2_amended [] (by decide)

/-- Replacing the value stored under key `k` does not affect lookups of a
different key `k2`. -/
theorem find_map_kvreplace (l : List (String × String)) (k v k2 : String) (h : k2 ≠ k) :
    (l.map (fun p => if p.1 == k then (k, v) else p)).find? (fun q => q.1 == k2)
      = l.find? (fun q => q.1 == k2) := by
  induction l with
  | nil => rfl
  | cons p t ih =>
    by_cases hp : (p.1 == k) = true
    · have hp1 : p.1 = k := by simpa using hp
      have hk2 : (k == k2) = false := beq_eq_false_iff_ne.mpr (Ne.symm h)
      simp only [List.map_cons, if_pos hp, List.find?_cons]
      rw [show ((k, v).1 == k2) = false from hk2, show (p.1 == k2) = false from hp1 ▸ hk2]
      exact ih
    · simp only [List.map_cons, if_neg hp, List.find?_cons]
      cases hq : (p.1 == k2) with
      | true => rfl
      | false => exact ih

/-- Appending a binding for key `k` does not affect lookups of a different
key `k2`. -/
theorem find_append_kv_ne (l : List (String × String)) (k v k2 : String) (h : k2 ≠ k) :
    (l ++ [(k, v)]).find? (fun q => q.1 == k2) = l.find? (fun q => q.1 == k2) := by
  induction l with
  | nil =>
    simp only [List.nil_append, List.find?_cons]
    rw [show ((k, v).1 == k2) = false from beq_eq_false_iff_ne.mpr (Ne.symm h)]
  | cons p t ih =>
    simp only [List.cons_append, List.find?_cons]
    cases hq : (p.1 == k2) with
    | true => rfl
    | false => exact ih

/-- `kvSet` only touches the binding of the key it sets. -/
theorem kvSet_find_ne (l : List (String × String)) (k v k2 : String) (h : k2 ≠ k) :
    (kvSet l k v).find? (fun q => q.1 == k2) = l.find? (fun q => q.1 == k2) := by
  unfold kvSet
  by_cases hin : (l.any (fun p => p.1 == k)) = true
  · rw [if_pos hin]; exact find_map_kvreplace l k v k2 h
  · rw [if_neg hin]; exact find_append_kv_ne l k v k2 h

/-- `config_update` never changes which sections exist. -/
theorem hasSection_config_update (cfg : IniConfig) (sec k v s : String) :
    hasSection (config_update cfg sec k v) s = hasSection cfg s := by
  induction cfg with
  | nil => rfl
  | cons p t ih =>
    simp only [config_update, List.map_cons, hasSection, List.any_cons] at *
    by_cases hp : (p.1 == sec) = true
    · simp only [if_pos hp]; rw [ih]
    · simp only [if_neg hp]; rw [ih]

/-- Frame property of one `config.set(sec, k, v)`: every lookup outside the
written section/key pair is unchanged. -/
theorem config_get_update_frame (cfg : IniConfig) (sec k v s k2 : String)
    (h : s ≠ sec ∨ k2 ≠ k) :
    config_get (config_update cfg sec k v) s k2 = config_get cfg s k2 := by
  have hfind : (config_update cfg sec k v).find? (fun p => p.1 == s)
      = (cfg.find? (fun p => p.1 == s)).map
          (fun p => if p.1 == sec then (p.1, kvSet p.2 k v) else p) := by
    unfold config_update
    rw [List.find?_map]
    have hcong : ((fun p : String × List (String × String) => p.1 == s) ∘
        (fun p : String × List (String × String) =>
          if p.1 == sec then (p.1, kvSet p.2 k v) else p))
        = fun p : String × List (String × String) => p.1 == s := by
      funext q
      by_cases hq : q.1 = sec
      · simp [Function.comp_apply, hq]
      · simp [Function.comp_apply, hq]
    rw [hcong]
  unfold config_get
  rw [hfind]
  cases hf : cfg.find? (fun p => p.1 == s) with
  | none => rfl
  | some p =>
    have hps : p.1 = s := by simpa using List.find?_some hf
    by_cases hpsec : (p.1 == sec) = true
    · have hsec2 : p.1 = sec := by simpa using hpsec
      rcases h with h | h
      · exact absurd (hps ▸ hsec2) h
      · simp only [Option.map_some', if_pos hpsec]
        rw [kvSet_find_ne p.2 k v k2 h]
    · simp only [Option.map_some', if_neg hpsec]

/-- Value of a decimal digit list extended by one digit on the right. -/
theorem decValL_append_digit (l : List Char) (c : Char) :
    decValL (l ++ [c]) = 10 * decValL l + digitVal c := by
  simp [decValL, List.foldl_append]

/-- Leading zeros do not change the decimal value. -/
theorem decValL_replicate_zero (k : Nat) (l : List Char) :
    decValL (List.replicate k '0' ++ l) = decValL l := by
  have h0 : ∀ n : Nat, List.foldl (fun a c => 10 * a + digitVal c) 0 (List.replicate n '0') = 0 := by
    intro n
    induction n with
    | zero => rfl
    | succ n ih =>
      rw [List.replicate_succ, List.foldl_cons]
      simpa [digitVal] using ih
  simp [decValL, List.foldl_append, h0 k]

/-- Padding with `zfillL` does not change the decimal value. -/
theorem decValL_zfillL (w : Nat) (l : List Char) : decValL (zfillL w l) = decValL l :=
  decValL_replicate_zero (w - l.length) l

/-- A digit below ten renders to the character it denotes. -/
theorem digitVal_digitChar (d : Nat) (h : d < 10) : digitVal (Nat.digitChar d) = d := by
  interval_cases d <;> rfl

/-- With sufficient fuel the decimal rendering evaluates back to the number. -/
theorem decValL_pyStrAux : ∀ (fuel n : Nat), n < fuel → decValL (pyStrAux fuel n) = n := by
  intro fuel
  induction fuel with
  | zero => intro n h; exact absurd h (Nat.not_lt_zero n)
  | succ fuel ih =>
    intro n h
    by_cases h10 : n < 10
    · simp only [pyStrAux, if_pos h10]
      simpa [decValL] using digitVal_digitChar n h10
    · have hd : n / 10 < fuel := by
        have h1 : n / 10 < n := Nat.div_lt_self (by omega) (by omega)
        omega
      simp only [pyStrAux, if_neg h10]
      rw [decValL_append_digit, ih (n / 10) hd, digitVal_digitChar (n % 10) (by omega)]
      omega

/-- The decimal rendering round-trips. -/
theorem decValL_pyStrL (n : Nat) : decValL (pyStrL n) = n :=
  decValL_pyStrAux (n + 1) n (Nat.lt_succ_self n)

/-- Two distinct indices are rendered to distinct zero-padded strings
(whatever the common padding width). -/
theorem zfill_pyStr_injective (w i j : Nat) (h : zfill w (pyStr i) = zfill w (pyStr j)) :
    i = j := by
  have hd : zfillL w (pyStrL i) = zfillL w (pyStrL j) := congrArg String.data h
  have := congrArg decValL hd
  rwa [decValL_zfillL, decValL_zfillL, decValL_pyStrL, decValL_pyStrL] at this

/-- Distinct repetition indices get distinct output directories. -/
theorem output_dir_name_injective (root : String) (w : Nat) :
    Function.Injective (output_dir_name root w) := by
  intro i j h
  have hd := congrArg String.data h
  simp only [output_dir_name, pathJoin, String.data_append, List.append_assoc] at hd
  have h1 := List.append_cancel_left hd
  have h2 := List.append_cancel_left h1
  have h3 := List.append_cancel_left h2
  exact zfill_pyStr_injective w i j (by
    apply congrArg String.mk
    exact h3)

/-- The whole list of candidate output directories is duplicate-free. -/
theorem output_dir_name_nodup (root : String) (w n : Nat) :
    ((List.range n).map (output_dir_name root w)).Nodup :=
  (List.nodup_range n).map (output_dir_name_injective root w)

/-- With sufficient fuel the decimal rendering has one character per digit. -/
theorem length_pyStrAux : ∀ (fuel n : Nat), n < fuel →
    (pyStrAux fuel n).length = Nat.log 10 n + 1 := by
  intro fuel
  induction fuel with
  | zero => intro n h; exact absurd h (Nat.not_lt_zero n)
  | succ fuel ih =>
    intro n h
    by_cases h10 : n < 10
    · simp [pyStrAux, if_pos h10, Nat.log_of_lt h10]
    · have hd : n / 10 < fuel := by
        have h1 : n / 10 < n := Nat.div_lt_self (by omega) (by omega)
        omega
      have hlog : Nat.log 10 n = Nat.log 10 (n / 10) + 1 := by
        have h2 := Nat.log_div_base 10 n
        have h3 : 0 < Nat.log 10 n := Nat.log_pos (by omega) (by omega)
        omega
      simp only [pyStrAux, if_neg h10, List.length_append, ih (n / 10) hd,
        List.length_cons, List.length_nil]
      omega

/-- The padding width computed by the driver equals `floor(log10 n) + 1`. -/
theorem n_to_zfill_eq_log (n : Nat) : n_to_zfill n = Nat.log 10 n + 1 :=
  length_pyStrAux (n + 1) n (Nat.lt_succ_self n)

/-- Master invariant of the repetition loop.  For any starting state whose
temporary configuration has an `INFERENCE` section and any batch of indices
with duplicate-free candidate directories, the loop terminates in
`Except.ok` whatever the call outcomes; it creates exactly the directories
missing at entry, dispatches exactly once per missing directory (in order),
logs a failure exactly for the dispatched indices whose call raised, and
changes nothing of the configuration outside `INFERENCE.save_seg_dir`. -/
theorem runLoop_spec (env : Nat → CallResult) (method : Option String)
    (w : Nat) (root tmp : String) :
    ∀ (l : List Nat) (st : DriverState),
    hasSection st.tmpConfig "INFERENCE" = true →
    (l.map (output_dir_name root w)).Nodup →
    ∃ st2,
      runLoop env method w root tmp st l = Except.ok st2 ∧
      st2.dirs = st.dirs ++
        (l.filter (fun i => decide (output_dir_name root w i ∉ st.dirs))).map
          (output_dir_name root w) ∧
      st2.dispatched = st.dispatched ++
        (l.filter (fun i => decide (output_dir_name root w i ∉ st.dirs))).map
          (fun i => (i, system_command (select_app method) tmp)) ∧
      st2.failLog = st.failLog ++
        l.filter (fun i => decide (output_dir_name root w i ∉ st.dirs) && isExn (env i)) ∧
      (∀ sec k2, ¬(sec = "INFERENCE" ∧ k2 = "save_seg_dir") →
        config_get st2.tmpConfig sec k2 = config_get st.tmpConfig sec k2) ∧
      (∀ sec, hasSection st2.tmpConfig sec = hasSection st.tmpConfig sec) := by
  intro l
  induction l with
  | nil =>
    intro st hsec hnodup
    exact ⟨st, rfl, by simp, by simp, by simp, fun _ _ _ => rfl, fun _ => rfl⟩
  | cons i t ih =>
    intro st hsec hnodup
    have hni : output_dir_name root w i ∉ t.map (output_dir_name root w) :=
      (List.nodup_cons.mp (by simpa using hnodup)).1
    have hnt : (t.map (output_dir_name root w)).Nodup :=
      (List.nodup_cons.mp (by simpa using hnodup)).2
    by_cases hmem : output_dir_name root w i ∈ st.dirs
    · have hstep : runRepetition env method w root tmp st i = Except.ok st := by
        simp [runRepetition, hmem]
      obtain ⟨st2, hfold, hdirs, hdisp, hfail, hget, hsecs⟩ := ih st hsec hnt
      refine ⟨st2, ?_, ?_, ?_, ?_, hget, hsecs⟩
      · simpa [runLoop, hstep] using hfold
      · simpa [List.filter_cons, hmem] using hdirs
      · simpa [List.filter_cons, hmem] using hdisp
      · simpa [List.filter_cons, hmem] using hfail
    · have hstep : runRepetition env method w root tmp st i = Except.ok
          ⟨st.dirs ++ [output_dir_name root w i],
           config_update st.tmpConfig "INFERENCE" "save_seg_dir" (output_dir_name root w i),
           st.dispatched ++ [(i, system_command (select_app method) tmp)],
           st.failLog ++ if isExn (env i) then [i] else []⟩ := by
        cases henv : env i with
        | ret c =>
          simp [runRepetition, hmem, config_set, hsec, calling_function, henv, isExn]
        | exn m =>
          simp [runRepetition, hmem, config_set, hsec, calling_function, henv, isExn]
      have hsec1 : hasSection (config_update st.tmpConfig "INFERENCE" "save_seg_dir"
          (output_dir_name root w i)) "INFERENCE" = true := by
        rw [hasSection_config_update]; exact hsec
      obtain ⟨st2, hfold, hdirs, hdisp, hfail, hget, hsecs⟩ := ih
        ⟨st.dirs ++ [output_dir_name root w i],
         config_update st.tmpConfig "INFERENCE" "save_seg_dir" (output_dir_name root w i),
         st.dispatched ++ [(i, system_command (select_app method) tmp)],
         st.failLog ++ if isExn (env i) then [i] else []⟩
        hsec1 hnt
      have hpt : ∀ j ∈ t,
          (decide (output_dir_name root w j ∉ st.dirs ++ [output_dir_name root w i]))
          = (decide (output_dir_name root w j ∉ st.dirs)) := by
        intro j hj
        have hne : output_dir_name root w j ≠ output_dir_name root w i := by
          intro he
          exact hni (he ▸ List.mem_map_of_mem (output_dir_name root w) hj)
        rw [decide_eq_decide]
        simp [List.mem_append, hne]
      have hfilt2 : t.filter
            (fun j => decide (output_dir_name root w j ∉ st.dirs ++ [output_dir_name root w i]))
          = t.filter (fun j => decide (output_dir_name root w j ∉ st.dirs)) :=
        List.filter_congr hpt
      have hfilt3 : t.filter
            (fun j => decide (output_dir_name root w j ∉ st.dirs ++ [output_dir_name root w i])
              && isExn (env j))
          = t.filter (fun j => decide (output_dir_name root w j ∉ st.dirs) && isExn (env j)) :=
        List.filter_congr (fun j hj => by rw [hpt j hj])
      refine ⟨st2, ?_, ?_, ?_, ?_, ?_, ?_⟩
      · rw [show runLoop env method w root tmp st (i :: t)
            = runLoop env method w root tmp
              ⟨st.dirs ++ [output_dir_name root w i],
               config_update st.tmpConfig "INFERENCE" "save_seg_dir" (output_dir_name root w i),
               st.dispatched ++ [(i, system_command (select_app method) tmp)],
               st.failLog ++ if isExn (env i) then [i] else []⟩ t from by
          simp [runLoop, hstep]]
        exact hfold
      · rw [hdirs]
        simp only at hfilt2
        rw [hfilt2]
        simp [List.filter_cons, hmem, List.append_assoc]
      · rw [hdisp]
        simp only at hfilt2
        rw [hfilt2]
        simp [List.filter_cons, hmem, List.append_assoc]
      · rw [hfail]
        simp only at hfilt3
        rw [hfilt3]
        cases hex : isExn (env i) <;>
          simp [List.filter_cons, hmem, hex, List.append_assoc]
      · intro sec k2 hnot
        rw [hget sec k2 hnot]
        exact config_get_update_frame st.tmpConfig "INFERENCE" "save_seg_dir"
          (output_dir_name root w i) sec k2 (not_and_or.mp hnot)
      · intro sec
        rw [hsecs sec]
        exact hasSection_config_update st.tmpConfig "INFERENCE" "save_seg_dir"
          (output_dir_name root w i) sec

/-- Claim C3: for every `n_evaluations = N ≥ 1`, a driver run from a fresh
output tree considers exactly `N` candidate output directories, one per index
`0..N-1`, each named `{output_prefix}/{eval_set}/output_iter_{index}` with the
index zero-padded to width `floor(log10 N) + 1`. -/
theorem claim_C3 (env : Nat → CallResult) (method : Option String) (N : Nat)
    (out0 eval_set tmp : String) (cfg : IniConfig)
    (disp : List (Nat × List String)) (flog : List Nat)
    (hN : 1 ≤ N) (hsec : hasSection cfg "INFERENCE" = true) :
    n_to_zfill N = Nat.log 10 N + 1 ∧
    ∃ st2, runDriver env method N out0 eval_set tmp ⟨[], cfg, disp, flog⟩ = Except.ok st2 ∧
      st2.dirs = (List.range N).map (fun i =>
        pathJoin (pathJoin out0 eval_set) ("output_iter_" ++ zfill (n_to_zfill N) (pyStr i))) ∧
      st2.dirs.length = N := by
  refine ⟨n_to_zfill_eq_log N, ?_⟩
  obtain ⟨st2, hrun, hdirs, _, _, _, _⟩ := runLoop_spec env method (n_to_zfill N)
    (pathJoin out0 eval_set) tmp (List.range N) ⟨[], cfg, disp, flog⟩ hsec
    (output_dir_name_nodup _ _ N)
  refine ⟨st2, hrun, ?_, ?_⟩
  · rw [hdirs]
    simp [output_dir_name]
  · rw [hdirs]
    simp

/-- Claim C3 witness: at `N = 10` the padding width is 2 and the ten
candidate directories are `output_iter_00` through `output_iter_09`. -/
theorem claim_C3_witness :
    (n_to_zfill 10 = Nat.log 10 10 + 1 ∧
      ∃ st2, runDriver (fun _ => CallResult.ret 0) none 10 "output" "inference" "cfg_tmp.ini"
          ⟨[], [("INFERENCE", [])], [], []⟩ = Except.ok st2 ∧
        st2.dirs = (List.range 10).map (fun i =>
          pathJoin (pathJoin "output" "inference")
            ("output_iter_" ++ zfill (n_to_zfill 10) (pyStr i))) ∧
        st2.dirs.length = 10) ∧
    (List.range 10).map (fun i =>
        pathJoin (pathJoin "output" "inference")
          ("output_iter_" ++ zfill (n_to_zfill 10) (pyStr i)))
      = ["output/inference/output_iter_00", "output/inference/output_iter_01",
         "output/inference/output_iter_02", "output/inference/output_iter_03",
         "output/inference/output_iter_04", "output/inference/output_iter_05",
         "output/inference/output_iter_06", "output/inference/output_iter_07",
         "output/inference/output_iter_08", "output/inference/output_iter_09"] :=
  ⟨claim_C3 (fun _ => CallResult.ret 0) none 10 "output" "inference" "cfg_tmp.ini"
      [("INFERENCE", [])] [] [] (by decide) (by decide),
   by decide⟩

/-- Claim C4: a repetition whose output directory already exists is skipped
entirely — the state is returned unchanged (no directory creation, no
configuration mutation, no dispatch) — and consequently a driver run
dispatches exactly for the indices whose directory is missing at entry. -/
theorem claim_C4 (env : Nat → CallResult) (method : Option String) (N : Nat)
    (out0 eval_set tmp : String) (st : DriverState)
    (hsec : hasSection st.tmpConfig "INFERENCE" = true) :
    (∀ i : Nat,
      output_dir_name (pathJoin out0 eval_set) (n_to_zfill N) i ∈ st.dirs →
      runRepetition env method (n_to_zfill N) (pathJoin out0 eval_set) tmp st i
        = Except.ok st) ∧
    ∃ st2, runDriver env method N out0 eval_set tmp st = Except.ok st2 ∧
      st2.dispatched = st.dispatched ++
        ((List.range N).filter (fun i =>
            decide (output_dir_name (pathJoin out0 eval_set) (n_to_zfill N) i ∉ st.dirs))).map
          (fun i => (i, system_command (select_app method) tmp)) := by
  constructor
  · intro i hmem
    simp [runRepetition, hmem]
  · obtain ⟨st2, hrun, _, hdisp, _, _, _⟩ := runLoop_spec env method (n_to_zfill N)
      (pathJoin out0 eval_set) tmp (List.range N) st hsec (output_dir_name_nodup _ _ N)
    exact ⟨st2, hrun, hdisp⟩

/-- Claim C4 witness: with `N = 2` and the directory of index 0 already
present, the re-run dispatches only for the missing index. -/
theorem claim_C4_witness :
    (∀ i : Nat,
      output_dir_name (pathJoin "out" "inference") (n_to_zfill 2) i
        ∈ ["out/inference/output_iter_0"] →
      runRepetition (fun _ => CallResult.ret 0) none (n_to_zfill 2)
        (pathJoin "out" "inference") "t_tmp.ini"
        ⟨["out/inference/output_iter_0"], [("INFERENCE", [])], [], []⟩ i
        = Except.ok ⟨["out/inference/output_iter_0"], [("INFERENCE", [])], [], []⟩) ∧
    ∃ st2, runDriver (fun _ => CallResult.ret 0) none 2 "out" "inference" "t_tmp.ini"
        ⟨["out/inference/output_iter_0"], [("INFERENCE", [])], [], []⟩ = Except.ok st2 ∧
      st2.dispatched = ([] : List (Nat × List String)) ++
        ((List.range 2).filter (fun i =>
            decide (output_dir_name (pathJoin "out" "inference") (n_to_zfill 2) i
              ∉ ["out/inference/output_iter_0"]))).map
          (fun i => (i, system_command (select_app none) "t_tmp.ini")) :=
  claim_C4 (fun _ => CallResult.ret 0) none 2 "out" "inference" "t_tmp.ini"
    ⟨["out/inference/output_iter_0"], [("INFERENCE", [])], [], []⟩ (by decide)

/-- Claim C5: whatever the per-repetition call outcomes, the driver reaches
its terminal state in success (`Except.ok`), having considered every index:
an exception during dispatch is merely appended to the failure log, the
repetition's directory stays created (no cleanup), each considered index is
dispatched exactly once (no retry), and the loop continues to the end. -/
theorem claim_C5 (env : Nat → CallResult) (method : Option String) (N : Nat)
    (out0 eval_set tmp : String) (st : DriverState)
    (hsec : hasSection st.tmpConfig "INFERENCE" = true) :
    ∃ st2, runDriver env method N out0 eval_set tmp st = Except.ok st2 ∧
      st2.failLog = st.failLog ++
        (List.range N).filter (fun i =>
          decide (output_dir_name (pathJoin out0 eval_set) (n_to_zfill N) i ∉ st.dirs)
            && isExn (env i)) ∧
      st2.dirs = st.dirs ++
        ((List.range N).filter (fun i =>
            decide (output_dir_name (pathJoin out0 eval_set) (n_to_zfill N) i ∉ st.dirs))).map
          (output_dir_name (pathJoin out0 eval_set) (n_to_zfill N)) ∧
      st2.dispatched = st.dispatched ++
        ((List.range N).filter (fun i =>
            decide (output_dir_name (pathJoin out0 eval_set) (n_to_zfill N) i ∉ st.dirs))).map
          (fun i => (i, system_command (select_app method) tmp)) := by
  obtain ⟨st2, hrun, hdirs, hdisp, hfail, _, _⟩ := runLoop_spec env method (n_to_zfill N)
    (pathJoin out0 eval_set) tmp (List.range N) st hsec (output_dir_name_nodup _ _ N)
  exact ⟨st2, hrun, hfail, hdirs, hdisp⟩

/-- Claim C5 witness: a driver run in which every dispatch raises still ends
in `Except.ok` with all indices logged as failures. -/
theorem claim_C5_witness :
    ∃ st2, runDriver (fun _ => CallResult.exn "OSError") none 2 "o" "inference" "t_tmp.ini"
        ⟨[], [("INFERENCE", [])], [], []⟩ = Except.ok st2 ∧
      st2.failLog = ([] : List Nat) ++
        (List.range 2).filter (fun i =>
          decide (output_dir_name (pathJoin "o" "inference") (n_to_zfill 2) i
              ∉ ([] : List String))
            && isExn ((fun _ => CallResult.exn "OSError") i)) ∧
      st2.dirs = ([] : List String) ++
        ((List.range 2).filter (fun i =>
            decide (output_dir_name (pathJoin "o" "inference") (n_to_zfill 2) i
              ∉ ([] : List String)))).map
          (output_dir_name (pathJoin "o" "inference") (n_to_zfill 2)) ∧
      st2.dispatched = ([] : List (Nat × List String)) ++
        ((List.range 2).filter (fun i =>
            decide (output_dir_name (pathJoin "o" "inference") (n_to_zfill 2) i
              ∉ ([] : List String)))).map
          (fun i => (i, system_command (select_app none) "t_tmp.ini")) :=
  claim_C5 (fun _ => CallResult.exn "OSError") none 2 "o" "inference" "t_tmp.ini"
    ⟨[], [("INFERENCE", [])], [], []⟩ (by decide)

/-- Claim C8: one per-repetition mutation updates only `save_seg_dir` in the
`INFERENCE` section, and across a whole driver invocation every lookup
outside `INFERENCE.save_seg_dir` (and the set of sections) of the temporary
configuration is unchanged. -/
theorem claim_C8 (env : Nat → CallResult) (method : Option String) (N : Nat)
    (out0 eval_set tmp : String) (st : DriverState)
    (hsec : hasSection st.tmpConfig "INFERENCE" = true) :
    (∀ (cfg : IniConfig) (d sec k2 : String), ¬(sec = "INFERENCE" ∧ k2 = "save_seg_dir") →
      config_get (config_update cfg "INFERENCE" "save_seg_dir" d) sec k2
        = config_get cfg sec k2) ∧
    ∃ st2, runDriver env method N out0 eval_set tmp st = Except.ok st2 ∧
      (∀ sec k2, ¬(sec = "INFERENCE" ∧ k2 = "save_seg_dir") →
        config_get st2.tmpConfig sec k2 = config_get st.tmpConfig sec k2) ∧
      (∀ sec, hasSection st2.tmpConfig sec = hasSection st.tmpConfig sec) := by
  constructor
  · intro cfg d sec k2 hnot
    exact config_get_update_frame cfg "INFERENCE" "save_seg_dir" d sec k2 (not_and_or.mp hnot)
  · obtain ⟨st2, hrun, _, _, _, hget, hsecs⟩ := runLoop_spec env method (n_to_zfill N)
      (pathJoin out0 eval_set) tmp (List.range N) st hsec (output_dir_name_nodup _ _ N)
    exact ⟨st2, hrun, hget, hsecs⟩

/-- Claim C8 witness: a configuration with a `SYSTEM` section and an extra
`INFERENCE` key keeps them through a two-repetition run. -/
theorem claim_C8_witness :
    (∀ (cfg : IniConfig) (d sec k2 : String), ¬(sec = "INFERENCE" ∧ k2 = "save_seg_dir") →
      config_get (config_update cfg "INFERENCE" "save_seg_dir" d) sec k2
        = config_get cfg sec k2) ∧
    ∃ st2, runDriver (fun _ => CallResult.ret 0) none 2 "p" "validation" "c_tmp.ini"
        ⟨[], [("SYSTEM", [("model_dir", "m")]), ("INFERENCE", [("border", "(0, 0, 0)")])],
         [], []⟩ = Except.ok st2 ∧
      (∀ sec k2, ¬(sec = "INFERENCE" ∧ k2 = "save_seg_dir") →
        config_get st2.tmpConfig sec k2
          = config_get [("SYSTEM", [("model_dir", "m")]),
              ("INFERENCE", [("border", "(0, 0, 0)")])] sec k2) ∧
      (∀ sec, hasSection st2.tmpConfig sec
        = hasSection [("SYSTEM", [("model_dir", "m")]),
            ("INFERENCE", [("border", "(0, 0, 0)")])] sec) :=
  claim_C8 (fun _ => CallResult.ret 0) none 2 "p" "validation" "c_tmp.ini"
    ⟨[], [("SYSTEM", [("model_dir", "m")]), ("INFERENCE", [("border", "(0, 0, 0)")])],
     [], []⟩ (by decide)

/-- Claim C9: the dispatcher never inspects the external exit status —
`calling_function` discards `call`'s return value — so a repetition whose
process completes with any exit status behaves exactly as one exiting with
status 0 and logs no failure; only a raised exception reaches the handler. -/
theorem claim_C9 (env : Nat → CallResult) (method : Option String)
    (w : Nat) (root tmp : String) (st : DriverState) (i : Nat) (c : Int)
    (henv : env i = CallResult.ret c) :
    calling_function (env i) = Except.ok () ∧
    runRepetition env method w root tmp st i
      = runRepetition (fun _ => CallResult.ret 0) method w root tmp st i ∧
    (∀ st2, runRepetition env method w root tmp st i = Except.ok st2 →
      st2.failLog = st.failLog) := by
  have hcf : calling_function (env i) = Except.ok () := by rw [henv]; rfl
  refine ⟨hcf, ?_, ?_⟩
  · simp only [runRepetition, henv, calling_function]
  · intro st2 h2
    simp only [runRepetition, hcf] at h2
    by_cases hmem : output_dir_name root w i ∈ st.dirs
    · rw [if_pos hmem] at h2
      simp only [Except.ok.injEq] at h2
      rw [← h2]
    · rw [if_neg hmem] at h2
      cases hcs : config_set st.tmpConfig "INFERENCE" "save_seg_dir"
          (output_dir_name root w i) with
      | error e => rw [hcs] at h2; cases h2
      | ok cfg1 =>
        rw [hcs] at h2
        simp only [Except.ok.injEq] at h2
        rw [← h2]

/-- Claim C9 witness: exit status 7 is treated exactly like exit status 0. -/
theorem claim_C9_witness :
    calling_function ((fun _ => CallResult.ret 7) 0) = Except.ok () ∧
    runRepetition (fun _ => CallResult.ret 7) none 1 "r" "t_tmp.ini"
        ⟨[], [("INFERENCE", [])], [], []⟩ 0
      = runRepetition (fun _ => CallResult.ret 0) none 1 "r" "t_tmp.ini"
        ⟨[], [("INFERENCE", [])], [], []⟩ 0 ∧
    (∀ st2, runRepetition (fun _ => CallResult.ret 7) none 1 "r" "t_tmp.ini"
        ⟨[], [("INFERENCE", [])], [], []⟩ 0 = Except.ok st2 →
      st2.failLog = ([] : List Nat)) :=
  claim_C9 (fun _ => CallResult.ret 7) none 1 "r" "t_tmp.ini"
    ⟨[], [("INFERENCE", [])], [], []⟩ 0 7 rfl

/-- Claim C10: a repetition that is not skipped creates its output directory
even when the dispatch raises, the directory is not removed on failure, the
command is still recorded as dispatched and the failure logged — and a later
run of the same repetition (any environment) skips it, returning the state
unchanged instead of retrying. -/
theorem claim_C10 (env env2 : Nat → CallResult) (method : Option String)
    (w : Nat) (root tmp : String) (st : DriverState) (i : Nat) (m : String)
    (henv : env i = CallResult.exn m)
    (hnew : output_dir_name root w i ∉ st.dirs)
    (hsec : hasSection st.tmpConfig "INFERENCE" = true) :
    ∃ st2, runRepetition env method w root tmp st i = Except.ok st2 ∧
      output_dir_name root w i ∈ st2.dirs ∧
      st2.dispatched = st.dispatched ++ [(i, system_command (select_app method) tmp)] ∧
      st2.failLog = st.failLog ++ [i] ∧
      runRepetition env2 method w root tmp st2 i = Except.ok st2 := by
  refine ⟨⟨st.dirs ++ [output_dir_name root w i],
      config_update st.tmpConfig "INFERENCE" "save_seg_dir" (output_dir_name root w i),
      st.dispatched ++ [(i, system_command (select_app method) tmp)],
      st.failLog ++ [i]⟩, ?_, ?_, rfl, rfl, ?_⟩
  · simp [runRepetition, hnew, config_set, hsec, calling_function, henv]
  · simp
  · have hmem2 : output_dir_name root w i ∈ st.dirs ++ [output_dir_name root w i] := by
      simp
    simp [runRepetition, hmem2]

/-- Claim C10 witness: a failing dispatch at index 0 leaves the directory as
a completion marker and the re-run skips it. -/
theorem claim_C10_witness :
    ∃ st2, runRepetition (fun _ => CallResult.exn "OSError") none 1 "r" "t_tmp.ini"
        ⟨[], [("INFERENCE", [])], [], []⟩ 0 = Except.ok st2 ∧
      output_dir_name "r" 1 0 ∈ st2.dirs ∧
      st2.dispatched = ([] : List (Nat × List String)) ++
        [(0, system_command (select_app none) "t_tmp.ini")] ∧
      st2.failLog = ([] : List Nat) ++ [0] ∧
      runRepetition (fun _ => CallResult.ret 0) none 1 "r" "t_tmp.ini" st2 0
        = Except.ok st2 :=
  claim_C10 (fun _ => CallResult.exn "OSError") (fun _ => CallResult.ret 0) none 1 "r"
    "t_tmp.ini" ⟨[], [("INFERENCE", [])], [], []⟩ 0 "OSError" rfl (by decide) (by decide)
